import Mathlib

/-!
# Verification of the PUT-event message iterator (`bmqp::PutMessageIterator`)

Shallow embedding of the PUT-event message iterator of this repository.

The repository ships the class header `bmqp_putmessageiterator.h` with all of
its inline definitions (default constructor, `clear`, `isValid`, `header`,
`hasMessageProperties`, `hasMsgGroupId`, `hasOptions`,
`messagePropertiesSize`, `optionsSize`, `operator=`); those are translated
directly from the source.  The out-of-line bodies (`next`, `reset`,
`copyFrom`, `messagePayloadSize`, `initCachedOptionsView`) and the external
collaborators (`mwcu::BlobIterator`, `bmqp::OptionsView`, the compression
codecs, the `MessageProperties` decoder) are not part of the sources at hand;
where a definition models one of those, its doc comment starts with
`Modelled from the spec:` and follows the specification's words.

Modelling conventions:
* the buffer chain is a flat byte list (`List Nat`); a blob position is the
  absolute byte offset, with `0` playing the role of the default-constructed
  (unset) `mwcu::BlobPosition`;
* machine integers are `Int`/`Nat`; the C++ sentinels (`-1` for "not
  initialized", `0` for an unset position) are kept verbatim;
* `mutable` members updated by accessors are threaded explicitly: such
  accessors return a pair of result and updated state;
* `BSLS_ASSERT_SAFE` preconditions that a claim is about are modelled as
  definedness guards (the accessor returns `Option`); the remaining
  accessors are plain projections;
* the external codec, the external message-properties decoder's size/format
  probes are bundled in `Externals` and quantified over in the theorems.
-/

namespace BmqpPut

/-- Protocol word size in bytes (`bmqp::Protocol::k_WORD_SIZE`). -/
def k_WORD_SIZE : Nat := 4

/-- Minimum size in bytes of a PUT header, per the wire layout of the spec
(fields laid out through byte offset 39). -/
def k_MIN_PUT_HEADER_BYTES : Nat := 40

/-- Minimum size in bytes of an event header. -/
def k_MIN_EVENT_HEADER_BYTES : Nat := 8

/-- Read `n` bytes big-endian starting at absolute offset `pos` of the blob;
bytes beyond the end of the blob read as `0` (callers guard lengths first). -/
def beRead (blob : List Nat) (pos n : Nat) : Nat :=
  (List.range n).foldl (fun acc i => acc * 256 + blob.getD (pos + i) 0) 0

/-- The `len`-byte slice of the blob starting at absolute offset `pos`. -/
def subBytes (blob : List Nat) (pos len : Nat) : List Nat :=
  (blob.drop pos).take len

/-- The decoded, already-validated event header handed to `reset`
(`bmqp::EventHeader`): total event length in bytes and header length in
4-byte words. -/
structure EventHeader where
  length : Nat
  headerWords : Nat
deriving DecidableEq

/-- `bmqp::PutHeader`, the fixed-size structure at the start of each PUT
message (the iterator keeps a deep copy of it in `d_header`). -/
structure PutHeader where
  flags : Nat
  headerWords : Nat
  optionsWords : Nat
  compressionType : Nat
  totalWords : Nat
  queueId : Nat
  guid : List Nat
  crc32c : Nat
  schemaId : Nat
deriving DecidableEq

/-- A value-initialized `PutHeader()` (all fields zero). -/
def PutHeader.init : PutHeader :=
  { flags := 0, headerWords := 0, optionsWords := 0, compressionType := 0,
    totalWords := 0, queueId := 0, guid := List.replicate 16 0, crc32c := 0,
    schemaId := 0 }

/-- Modelled from the spec: the PUT-header decoder of the fixed-header
decoder component (the decoder source is not among the files at hand).  Wire
layout, all integers big-endian:
`0: flags(8) | header_words(8) | options_words(24 spanning the word seam)`,
`5: compression_type(3 high bits)`, `8: total_message_words(32)`,
`12: queue_id(32)`, `16: message_guid(16 bytes)`, `32: crc32c(32)`,
`36: schema_id(16)`. -/
def decodePutHeader (blob : List Nat) (pos : Nat) : PutHeader :=
  { flags := blob.getD pos 0
    headerWords := blob.getD (pos + 1) 0
    optionsWords := beRead blob (pos + 2) 3
    compressionType := blob.getD (pos + 5) 0 / 32
    totalWords := beRead blob (pos + 8) 4
    queueId := beRead blob (pos + 12) 4
    guid := (List.range 16).map (fun i => blob.getD (pos + 16 + i) 0)
    crc32c := beRead blob (pos + 32) 4
    schemaId := beRead blob (pos + 36) 2 }

/-- `bmqp::PutHeaderFlags::e_MESSAGE_PROPERTIES` (bit 0 of the flags). -/
def PutHeaderFlags.e_MESSAGE_PROPERTIES : Nat := 1

/-- `bmqp::PutHeaderFlagUtil::isSet`: test a flag mask against the flag
word. -/
def PutHeaderFlagUtil.isSet (flags flag : Nat) : Bool :=
  (flags &&& flag) != 0

/-- `bmqp::OptionType::e_MSG_GROUP_ID` (numeric tag of the group-id option
record). -/
def OptionType.e_MSG_GROUP_ID : Nat := 1

/-- Modelled from the spec: `mwcu::BlobIterator`, reduced to the members the
iterator consumes: the referenced blob, the current absolute byte offset,
and the number of bytes remaining in the iterated range.  The states
`d_blobIter(0, mwcu::BlobPosition(), 0, true)` of the source map to
`⟨[], 0, 0⟩`. -/
structure BlobIterator where
  blob : List Nat
  pos : Nat
  remaining : Nat
deriving DecidableEq

/-- `mwcu::BlobIterator::atEnd`: no bytes remain in the iterated range. -/
def BlobIterator.atEnd (it : BlobIterator) : Bool :=
  it.remaining == 0

/-- Well-formedness of a blob iterator: the iterated range lies within the
blob (maintained by construction in `mwcu::BlobIterator`). -/
def BlobIterator.wf (it : BlobIterator) : Prop :=
  it.pos + it.remaining ≤ it.blob.length

/-- One entry of the options view: the record's type tag and the length in
bytes of its payload (the bytes after the option header). -/
structure OptionEntry where
  otype : Nat
  payloadLength : Nat
deriving DecidableEq

/-- Modelled from the spec: the record walk of the options-view component
(`bmqp::OptionsView` is not among the files at hand).  Each record starts
with `packed?(1) | type(7) | words(24)`; the extended form places a 32-bit
word length in the next word when the words field is `0x7FFFFF`; unknown
types are skipped by length; any declared length overrunning the options
area makes the whole view invalid (`none`).  The fuel argument bounds the
recursion by the area length. -/
def parseOptionsGo : Nat → List Nat → Option (List OptionEntry)
  | _, [] => some []
  | 0, _ :: _ => none
  | fuel + 1, b :: rest =>
    let area := b :: rest
    if area.length < 4 then none
    else
      let words := beRead area 1 3
      if words = 0x7FFFFF then
        if area.length < 8 then none
        else
          let lenWords := beRead area 4 4
          if lenWords < 2 then none
          else if area.length < lenWords * k_WORD_SIZE then none
          else
            match parseOptionsGo fuel (area.drop (lenWords * k_WORD_SIZE)) with
            | some es => some (⟨b % 128, lenWords * k_WORD_SIZE - 8⟩ :: es)
            | none => none
      else
        if words = 0 then none
        else if area.length < words * k_WORD_SIZE then none
        else
          match parseOptionsGo fuel (area.drop (words * k_WORD_SIZE)) with
          | some es => some (⟨b % 128, words * k_WORD_SIZE - 4⟩ :: es)
          | none => none

/-- Parse the whole options area into its sequence of entries; `none` when
the area is structurally invalid. -/
def parseOptions (area : List Nat) : Option (List OptionEntry) :=
  parseOptionsGo area.length area

/-- Modelled from the spec: `bmqp::OptionsView` as the lazily computed typed
view over one message's options area; `entries = none` is the invalid
view. -/
structure OptionsView where
  entries : Option (List OptionEntry)
deriving DecidableEq

/-- Build the options view over the `size`-byte options area at absolute
offset `pos` of the blob. -/
def mkOptionsView (blob : List Nat) (pos size : Nat) : OptionsView :=
  ⟨parseOptions (subBytes blob pos size)⟩

/-- `OptionsView::isValid`. -/
def OptionsView.isValidView (v : OptionsView) : Bool :=
  v.entries.isSome

/-- `OptionsView::find(type)`: the first entry of the given type, `none`
standing for the `end()` sentinel (and for any lookup on an invalid
view). -/
def OptionsView.find (v : OptionsView) (t : Nat) : Option OptionEntry :=
  (v.entries.getD []).find? (fun e => e.otype == t)

/-- Number of entries of the view (`0` on an invalid view). -/
def OptionsView.entryCount (v : OptionsView) : Nat :=
  (v.entries.getD []).length

/-- The external collaborators the iterator dispatches to, quantified over
in the theorems: the `e_ZLIB` codec (`none` on codec failure or on the
decompressed size exceeding the configured cap), the probe reading the
declared total length (header and padding included) of the
message-properties area from its leading bytes, and the probe testing the
properties sub-header for the legacy (pre-schema) format. -/
structure Externals where
  zlib : List Nat → Option (List Nat)
  mpSize : List Nat → Option Nat
  mpIsOldFormat : List Nat → Bool

/-- The iterator state: one field per data member of
`bmqp::PutMessageIterator` (the allocator and buffer-factory handles carry
no observable state and are omitted). -/
structure State where
  d_blobIter : BlobIterator
  d_header : PutHeader
  d_applicationDataSize : Int
  d_lazyMessagePayloadSize : Int
  d_lazyMessagePayloadPosition : Nat
  d_messagePropertiesSize : Int
  d_applicationDataPosition : Nat
  d_optionsSize : Int
  d_optionsPosition : Nat
  d_advanceLength : Int
  d_optionsView : Option OptionsView
  d_decompressFlag : Bool
  d_applicationData : List Nat
  d_isDecompressingOldMPs : Bool
deriving DecidableEq

/-- The default constructor
`PutMessageIterator(bufferFactory, allocator, isDecompressingOldMPs)`:
creates an invalid instance. -/
def mkPutMessageIterator (isDecompressingOldMPs : Bool) : State :=
  { d_blobIter := ⟨[], 0, 0⟩
    d_header := PutHeader.init
    d_applicationDataSize := -1
    d_lazyMessagePayloadSize := -1
    d_lazyMessagePayloadPosition := 0
    d_messagePropertiesSize := 0
    d_applicationDataPosition := 0
    d_optionsSize := 0
    d_optionsPosition := 0
    d_advanceLength := -1
    d_optionsView := none
    d_decompressFlag := false
    d_applicationData := []
    d_isDecompressingOldMPs := isDecompressingOldMPs }

/-- `PutMessageIterator::clear` (header, inline): resets the blob iterator,
the cached header, every cached size and position, the advance length, the
owned decompressed blob and the cached options view.  As in the source, the
`d_decompressFlag` and `d_isDecompressingOldMPs` members are left
untouched. -/
def clear (s : State) : State :=
  { s with
    d_blobIter := ⟨[], 0, 0⟩
    d_header := PutHeader.init
    d_applicationDataSize := -1
    d_lazyMessagePayloadSize := -1
    d_lazyMessagePayloadPosition := 0
    d_messagePropertiesSize := 0
    d_applicationDataPosition := 0
    d_optionsSize := 0
    d_optionsPosition := 0
    d_advanceLength := -1
    d_applicationData := []
    d_optionsView := none }

/-- `PutMessageIterator::isValid` (header, inline):
`d_advanceLength != -1 && !d_blobIter.atEnd()`. -/
def isValid (s : State) : Bool :=
  s.d_advanceLength != -1 && !s.d_blobIter.atEnd

/-- `PutMessageIterator::hasMessageProperties` (header, inline): tests the
`e_MESSAGE_PROPERTIES` flag of the cached header. -/
def hasMessageProperties (s : State) : Bool :=
  PutHeaderFlagUtil.isSet s.d_header.flags PutHeaderFlags.e_MESSAGE_PROPERTIES

/-- `PutMessageIterator::hasOptions` (header, inline):
`d_optionsSize > 0`. -/
def hasOptions (s : State) : Bool :=
  decide (0 < s.d_optionsSize)

/-- `PutMessageIterator::optionsSize` (header, inline). -/
def optionsSize (s : State) : Int :=
  s.d_optionsSize

/-- `PutMessageIterator::applicationDataSize`. -/
def applicationDataSize (s : State) : Int :=
  s.d_applicationDataSize

/-- The condition asserted by `PutMessageIterator::messagePropertiesSize`
(header, inline): `d_decompressFlag || d_isDecompressingOldMPs`. -/
def mpsAssertCondition (s : State) : Bool :=
  s.d_decompressFlag || s.d_isDecompressingOldMPs

/-- The spec's wording of the precondition of `messagePropertiesSize`: "a
decompression policy is in effect (the decompress flag or the
decompress-old-format-properties flag is set)". -/
def specPolicyInEffect (s : State) : Prop :=
  s.d_decompressFlag = true ∨ s.d_isDecompressingOldMPs = true

/-- `PutMessageIterator::messagePropertiesSize` (header, inline), its
`BSLS_ASSERT_SAFE` preconditions modelled as a definedness guard: defined
only on a valid iterator under a decompression policy, where it returns the
cached `d_messagePropertiesSize`. -/
def messagePropertiesSize (s : State) : Option Int :=
  if isValid s && mpsAssertCondition s then some s.d_messagePropertiesSize
  else none

/-- Modelled from the spec: `initCachedOptionsView` (body not among the
files at hand): load `d_optionsView` with a view over the current message's
options area; constructed lazily, so an already-populated cache is kept. -/
def initCachedOptionsView (s : State) : State :=
  match s.d_optionsView with
  | some _ => s
  | none =>
    { s with
      d_optionsView :=
        some (mkOptionsView s.d_blobIter.blob s.d_optionsPosition
          s.d_optionsSize.toNat) }

/-- `PutMessageIterator::hasMsgGroupId` (header, inline): `false` without
consulting the options view when `hasOptions()` is false; otherwise loads
the cached options view (asserted valid; the assertion is modelled as a
definedness guard) and reports whether `find(e_MSG_GROUP_ID)` differs from
`end()`.  The updated cache is returned alongside the result. -/
def hasMsgGroupId (s : State) : Option Bool × State :=
  if hasOptions s = false then (some false, s)
  else
    match (initCachedOptionsView s).d_optionsView with
    | none => (none, initCachedOptionsView s)
    | some v =>
      if v.isValidView = true then
        (some (v.find OptionType.e_MSG_GROUP_ID).isSome, initCachedOptionsView s)
      else (none, initCachedOptionsView s)

/-- Modelled from the spec: `messagePayloadSize` (body not among the files
at hand): lazy, "computed as `application_data_size −
message_properties_size` on first call" and cached in
`d_lazyMessagePayloadSize` (`-1` = not initialized, per the member's
comment); defined under the same precondition as
`messagePropertiesSize`, which it reads. -/
def messagePayloadSize (s : State) : Option (Int × State) :=
  if isValid s && mpsAssertCondition s then
    if s.d_lazyMessagePayloadSize != -1 then
      some (s.d_lazyMessagePayloadSize, s)
    else
      some (s.d_applicationDataSize - s.d_messagePropertiesSize,
        { s with
          d_lazyMessagePayloadSize :=
            s.d_applicationDataSize - s.d_messagePropertiesSize })
  else none

/-- Modelled from the spec: `copyFrom` (body not among the files at hand):
"copy and adjust each of its members to represent the same object as the one
from `src`"; with value-typed members this is the source state itself. -/
def copyFrom (_self src : State) : State :=
  src

/-- `PutMessageIterator::operator=` (header, inline): copy from `rhs` unless
the operands are the same object (`this != &rhs`); `sameObject` stands for
the pointer-identity test. -/
def operatorAssign (self rhs : State) (sameObject : Bool) : State :=
  if sameObject = true then self else copyFrom self rhs

/-- Modelled from the spec: `reset(blob, eventHeader, decompressFlag)` (body
not among the files at hand): capture the blob, validate the event-header
length bounds against the blob length, set the cursor to the byte
immediately after the event header, set the decompress mode from the flag,
clear the caches and enter the pre-first-message state
(`d_advanceLength = 0`).  Returns 0 on success, non-zero on error. -/
def reset (blob : List Nat) (eventHeader : EventHeader)
    (decompressFlag : Bool) (s : State) : Int × State :=
  if eventHeader.headerWords * k_WORD_SIZE < k_MIN_EVENT_HEADER_BYTES ||
      blob.length < eventHeader.headerWords * k_WORD_SIZE then
    (-1, clear s)
  else
    (0, { clear s with
          d_blobIter := ⟨blob, eventHeader.headerWords * k_WORD_SIZE,
            blob.length - eventHeader.headerWords * k_WORD_SIZE⟩
          d_decompressFlag := decompressFlag
          d_advanceLength := 0 })

/-- Modelled from the spec: the rebind overload `reset(blob, other)` (body
not among the files at hand): "Implementations must validate that
`other.total_length == blob.total_length` before inheriting offsets;
otherwise return an error."  On success every cached member is inherited
from `other` while the blob reference is re-pointed at `blob`. -/
def resetWithOther (blob : List Nat) (s other : State) : Int × State :=
  if blob.length = other.d_blobIter.blob.length then
    (0, { copyFrom s other with
          d_blobIter := ⟨blob, other.d_blobIter.pos,
            other.d_blobIter.remaining⟩ })
  else (-1, s)

/-- Return code of `next()` on a message (`1`). -/
def rc_HAS_MESSAGE : Int := 1

/-- Return code of `next()` at end of event or on an invalid instance. -/
def rc_AT_END : Int := 0

/-- Error: truncation inside the PUT header. -/
def rc_TRUNCATED_HEADER : Int := -1

/-- Error: a declared length overruns its container. -/
def rc_INVALID_LENGTH : Int := -2

/-- Error: the padding byte is outside `[1, 4]`. -/
def rc_INVALID_PADDING : Int := -3

/-- Error: compression type not recognized under the current policy. -/
def rc_UNSUPPORTED_COMPRESSION : Int := -4

/-- Error: the codec reported failure. -/
def rc_DECOMPRESS_FAILED : Int := -5

/-- On a structural error `next` returns the negative code and the iterator
transitions to the invalid state (`d_advanceLength = -1`). -/
def errOut (rc : Int) (s : State) : Int × State :=
  (rc, { s with d_advanceLength := -1 })

/-- The state produced by a successful `next`: the cursor parked at the
current message, the (possibly rewritten) header copy, and every per-message
cache recomputed.  `adOpt` is `some` of the decompressed application data
when the decompression stage ran (the exposed header copy then has its
compression type cleared while the blob stays intact), `none` in zero-copy
mode.  The lazy payload cache and the options-view cache are invalidated. -/
def successState (iter : BlobIterator) (ph : PutHeader)
    (adOpt : Option (List Nat)) (rawAdSize mpSz : Nat) (s : State) : State :=
  { d_blobIter := iter
    d_header :=
      match adOpt with
      | some _ => { ph with compressionType := 0 }
      | none => ph
    d_applicationDataSize :=
      Int.ofNat (match adOpt with | some ad => ad.length | none => rawAdSize)
    d_lazyMessagePayloadSize := -1
    d_lazyMessagePayloadPosition := 0
    d_messagePropertiesSize := Int.ofNat mpSz
    d_applicationDataPosition :=
      iter.pos + ph.headerWords * k_WORD_SIZE + ph.optionsWords * k_WORD_SIZE
    d_optionsSize := Int.ofNat (ph.optionsWords * k_WORD_SIZE)
    d_optionsPosition :=
      if 0 < ph.optionsWords then iter.pos + ph.headerWords * k_WORD_SIZE
      else 0
    d_advanceLength := Int.ofNat (ph.totalWords * k_WORD_SIZE)
    d_optionsView := none
    d_decompressFlag := s.d_decompressFlag
    d_applicationData := adOpt.getD []
    d_isDecompressingOldMPs := s.d_isDecompressingOldMPs }

/-- The padding byte of the message under `ph`: the last byte of the
message stores the padding count. -/
def padByteOf (iter : BlobIterator) (ph : PutHeader) : Nat :=
  iter.blob.getD (iter.pos + ph.totalWords * k_WORD_SIZE - 1) 0

/-- The raw application-data size of the message under `ph`: total message
bytes minus header bytes, options bytes and the padding. -/
def rawAdSizeOf (iter : BlobIterator) (ph : PutHeader) : Nat :=
  ph.totalWords * k_WORD_SIZE - ph.headerWords * k_WORD_SIZE -
    ph.optionsWords * k_WORD_SIZE - padByteOf iter ph

/-- The raw (on-wire) application-data bytes of the message under `ph`. -/
def rawAdOf (iter : BlobIterator) (ph : PutHeader) : List Nat :=
  subBytes iter.blob
    (iter.pos + ph.headerWords * k_WORD_SIZE + ph.optionsWords * k_WORD_SIZE)
    (rawAdSizeOf iter ph)

/-- Stage 3 of `next` (see `next`): decompression and the
message-properties peek, on a structurally validated message.  The
properties-area length is read only when the `MESSAGE_PROPERTIES` flag is
set and a decompression policy is in effect (it is measured on the
decompressed bytes when the stage decompressed). -/
def nextPayload (ext : Externals) (s : State) (iter : BlobIterator)
    (ph : PutHeader) : Int × State :=
  if (s.d_decompressFlag ||
      (s.d_isDecompressingOldMPs &&
        PutHeaderFlagUtil.isSet ph.flags PutHeaderFlags.e_MESSAGE_PROPERTIES &&
        ext.mpIsOldFormat (rawAdOf iter ph))) = true then
    if 1 < ph.compressionType then
      errOut rc_UNSUPPORTED_COMPRESSION { s with d_blobIter := iter }
    else
      match (if ph.compressionType = 0 then some (rawAdOf iter ph)
          else ext.zlib (rawAdOf iter ph)) with
      | none => errOut rc_DECOMPRESS_FAILED { s with d_blobIter := iter }
      | some ad =>
        match (if PutHeaderFlagUtil.isSet ph.flags
              PutHeaderFlags.e_MESSAGE_PROPERTIES = true then
            ext.mpSize ad else some 0) with
        | none => errOut rc_INVALID_LENGTH { s with d_blobIter := iter }
        | some mpSz =>
          (rc_HAS_MESSAGE, successState iter ph (some ad) (rawAdSizeOf iter ph) mpSz s)
  else
    match (if (PutHeaderFlagUtil.isSet ph.flags
            PutHeaderFlags.e_MESSAGE_PROPERTIES &&
          s.d_isDecompressingOldMPs) = true then
        ext.mpSize (rawAdOf iter ph) else some 0) with
    | none => errOut rc_INVALID_LENGTH { s with d_blobIter := iter }
    | some mpSz =>
      (rc_HAS_MESSAGE, successState iter ph none (rawAdSizeOf iter ph) mpSz s)

/-- Stage 2 of `next` (see `next`): the structural validations on the
decoded PUT header `ph`; on success, hand over to `nextPayload`. -/
def nextValidate (ext : Externals) (s : State) (iter : BlobIterator)
    (ph : PutHeader) : Int × State :=
  if ph.headerWords * k_WORD_SIZE < k_MIN_PUT_HEADER_BYTES then
    errOut rc_INVALID_LENGTH { s with d_blobIter := iter }
  else if iter.remaining < ph.headerWords * k_WORD_SIZE then
    errOut rc_TRUNCATED_HEADER { s with d_blobIter := iter }
  else if ph.totalWords < ph.headerWords + ph.optionsWords then
    errOut rc_INVALID_LENGTH { s with d_blobIter := iter }
  else if iter.remaining < ph.totalWords * k_WORD_SIZE then
    errOut rc_INVALID_LENGTH { s with d_blobIter := iter }
  else if padByteOf iter ph < 1 ∨ 4 < padByteOf iter ph then
    errOut rc_INVALID_PADDING { s with d_blobIter := iter }
  else if ph.totalWords * k_WORD_SIZE <
      ph.headerWords * k_WORD_SIZE + ph.optionsWords * k_WORD_SIZE +
        padByteOf iter ph then
    errOut rc_INVALID_LENGTH { s with d_blobIter := iter }
  else nextPayload ext s iter ph

/-- Stage 1b of `next` (see `next`): require space for a minimal PUT
header, decode it at the cursor and validate. -/
def nextHeader (ext : Externals) (s : State) (iter : BlobIterator) : Int × State :=
  if iter.remaining < k_MIN_PUT_HEADER_BYTES then
    errOut rc_TRUNCATED_HEADER { s with d_blobIter := iter }
  else nextValidate ext s iter (decodePutHeader iter.blob iter.pos)

/-- The cursor after `next` steps it forward by the previous advance
length. -/
def steppedIter (s : State) : BlobIterator :=
  ⟨s.d_blobIter.blob, s.d_blobIter.pos + s.d_advanceLength.toNat,
    s.d_blobIter.remaining - s.d_advanceLength.toNat⟩

/-- Modelled from the spec: `next()` (body not among the files at hand),
the advance operation of §4.5: return 0 on an invalid instance or at end of
event (becoming invalid); step the cursor by the previous advance length;
decode and validate the PUT header (`nextHeader`: header length at least
the minimum, total length at least header plus options, message contained
in the remaining bytes, padding byte in `[1, 4]`); compute the options and
application-data extents; run the decompression stage per the policy
(`nextPayload`: `d_decompressFlag`, or `d_isDecompressingOldMPs` on a
legacy-format properties message); peek the properties-area length when the
`MESSAGE_PROPERTIES` flag is set and a decompression policy is in effect;
record the advance length and return 1.  Every structural violation yields
a negative code and the invalid state; errors are local to the instance
(no global error channel). -/
def next (ext : Externals) (s : State) : Int × State :=
  if isValid s = false then (rc_AT_END, s)
  else if s.d_blobIter.remaining < s.d_advanceLength.toNat then
    errOut rc_TRUNCATED_HEADER s
  else if (steppedIter s).atEnd = true then
    (rc_AT_END, { s with d_blobIter := steppedIter s, d_advanceLength := -1 })
  else nextHeader ext s (steppedIter s)

/-- The PUT header `next` decodes for the message at the stepped cursor. -/
def msgHeaderOf (s : State) : PutHeader :=
  decodePutHeader (steppedIter s).blob (steppedIter s).pos

/-- The result of the `(k+1)`-th call to `next` after reaching state `s`
(all intermediate states threaded through). -/
def nextIter (ext : Externals) (s : State) : Nat → Int × State
  | 0 => next ext s
  | k + 1 => nextIter ext (next ext s).2 k

/-- The states an iterator instance can be in: default construction followed
by any sequence of the modelled manipulators and cache-updating
accessors. -/
inductive Reachable : State → Prop where
  | ctor (b : Bool) : Reachable (mkPutMessageIterator b)
  | reset (blob : List Nat) (eh : EventHeader) (flag : Bool) (s : State) :
      Reachable s → Reachable (reset blob eh flag s).2
  | resetOther (blob : List Nat) (s other : State) :
      Reachable s → Reachable other → Reachable (resetWithOther blob s other).2
  | next (ext : Externals) (s : State) :
      Reachable s → Reachable (next ext s).2
  | clear (s : State) : Reachable s → Reachable (clear s)
  | assign (s rhs : State) (b : Bool) :
      Reachable s → Reachable rhs → Reachable (operatorAssign s rhs b)
  | groupId (s : State) : Reachable s → Reachable (hasMsgGroupId s).2
  | payload (s : State) (p : Int × State) :
      Reachable s → messagePayloadSize s = some p → Reachable p.2

end BmqpPut

namespace BmqpPut

/-- External collaborators that always fail / report new-format properties;
enough for the concrete events below, which never invoke them. -/
def extNone : Externals :=
  ⟨fun _ => none, fun _ => none, fun _ => false⟩

/-- An 8-byte blob holding only the event header: the empty PUT event
(boundary scenario: `total_length = header_length`, no messages). -/
def emptyEventBlob : List Nat := List.replicate 8 0

/-- A 60-byte PUT event: 8-byte event header, then one 52-byte message with
a 40-byte PUT header (10 header words, 13 total words, 1 options word, no
flags, no compression), one `MSG_GROUP_ID` option record, the 5-byte payload
`hello`, and 3 padding bytes. -/
def blobA : List Nat :=
  List.replicate 8 0 ++
  [0, 10, 0, 0, 1, 0, 0, 0] ++
  [0, 0, 0, 13] ++
  List.replicate 4 0 ++
  List.replicate 16 0 ++
  List.replicate 4 0 ++
  List.replicate 4 0 ++
  [1, 0, 0, 1] ++
  [104, 101, 108, 108, 111] ++
  [0, 0, 3]

/-- A 12-byte blob: event header followed by 4 stray bytes — truncation
inside the first PUT header. -/
def blobTrunc : List Nat := List.replicate 8 0 ++ [0, 10, 0, 0]

/-- Iterator freshly reset over `blobA` without decompression. -/
def stateA : State :=
  (reset blobA ⟨60, 2⟩ false (mkPutMessageIterator false)).2

/-- Iterator freshly reset over `blobA` with the decompress flag. -/
def stateADec : State :=
  (reset blobA ⟨60, 2⟩ true (mkPutMessageIterator false)).2

/-- Iterator positioned on the message of `blobA` (no decompression). -/
def msgA : State := (next extNone stateA).2

/-- Iterator positioned on the message of `blobA` (decompress flag set). -/
def msgADec : State := (next extNone stateADec).2

/-- Iterator freshly reset over the truncated blob. -/
def stateTrunc : State :=
  (reset blobTrunc ⟨12, 2⟩ false (mkPutMessageIterator false)).2

/-- Iterator freshly reset over the empty event. -/
def emptyEventState : State :=
  (reset emptyEventBlob ⟨8, 2⟩ false (mkPutMessageIterator false)).2

end BmqpPut

namespace BmqpPut

theorem next_of_not_isValid (ext : Externals) (s : State)
    (h : isValid s = false) : next ext s = (rc_AT_END, s) := by
  simp [next, h]

theorem nextIter_of_not_isValid (ext : Externals) (s : State)
    (h : isValid s = false) (k : Nat) : (nextIter ext s k).1 = rc_AT_END := by
  induction k with
  | zero => simp [nextIter, next_of_not_isValid ext s h]
  | succ n ih => rw [nextIter, next_of_not_isValid ext s h]; exact ih

theorem nextPayload_advanceLength (ext : Externals) (s : State)
    (iter : BlobIterator) (ph : PutHeader) :
    (nextPayload ext s iter ph).2.d_advanceLength = -1 ∨
    ((nextPayload ext s iter ph).1 = rc_HAS_MESSAGE ∧
      (nextPayload ext s iter ph).2.d_advanceLength =
        Int.ofNat (ph.totalWords * k_WORD_SIZE)) := by
  unfold nextPayload
  repeat' split
  all_goals simp [errOut, successState]

theorem nextValidate_advanceLength (ext : Externals) (s : State)
    (iter : BlobIterator) (ph : PutHeader) :
    (nextValidate ext s iter ph).2.d_advanceLength = -1 ∨
    ((nextValidate ext s iter ph).1 = rc_HAS_MESSAGE ∧
      0 ≤ (nextValidate ext s iter ph).2.d_advanceLength) := by
  unfold nextValidate
  repeat' split
  all_goals try simp [errOut]
  rcases nextPayload_advanceLength ext s iter ph with h | ⟨h1, h2⟩
  · exact Or.inl h
  · exact Or.inr ⟨h1, by rw [h2]; exact Int.ofNat_nonneg _⟩

theorem nextHeader_advanceLength (ext : Externals) (s : State)
    (iter : BlobIterator) :
    (nextHeader ext s iter).2.d_advanceLength = -1 ∨
    ((nextHeader ext s iter).1 = rc_HAS_MESSAGE ∧
      0 ≤ (nextHeader ext s iter).2.d_advanceLength) := by
  unfold nextHeader
  split
  · simp [errOut]
  · exact nextValidate_advanceLength ext s iter _

theorem next_advanceLength (ext : Externals) (s : State) :
    ((next ext s).1 = rc_AT_END ∧
      (next ext s).2.d_advanceLength = s.d_advanceLength) ∨
    (next ext s).2.d_advanceLength = -1 ∨
    ((next ext s).1 = rc_HAS_MESSAGE ∧ 0 ≤ (next ext s).2.d_advanceLength) := by
  unfold next
  split
  · exact Or.inl ⟨rfl, rfl⟩
  split
  · simp [errOut]
  split
  · simp
  · exact Or.inr (nextHeader_advanceLength ext s _)

theorem next_neg_invalid (ext : Externals) (s : State)
    (hr : (next ext s).1 < 0) : (next ext s).2.d_advanceLength = -1 := by
  rcases next_advanceLength ext s with ⟨h1, _⟩ | h | ⟨h1, _⟩
  · rw [h1] at hr; simp [rc_AT_END] at hr
  · exact h
  · rw [h1] at hr; simp [rc_HAS_MESSAGE] at hr

theorem nextPayload_one (ext : Externals) (s : State) (iter : BlobIterator)
    (ph : PutHeader) (r : Int) (t : State)
    (h : nextPayload ext s iter ph = (r, t)) (hr : r = rc_HAS_MESSAGE) :
    ∃ adOpt mpSz,
      t = successState iter ph adOpt (rawAdSizeOf iter ph) mpSz s ∧
      (PutHeaderFlagUtil.isSet ph.flags PutHeaderFlags.e_MESSAGE_PROPERTIES = false →
        mpSz = 0) := by
  unfold nextPayload errOut at h
  repeat' split at h
  all_goals injection h with h1 h2
  all_goals subst h1
  all_goals subst h2
  all_goals try simp [rc_UNSUPPORTED_COMPRESSION, rc_DECOMPRESS_FAILED,
    rc_INVALID_LENGTH, rc_HAS_MESSAGE] at hr
  all_goals first
    | (refine ⟨some _, _, rfl, fun hf => ?_⟩; simp_all)
    | (refine ⟨none, _, rfl, fun hf => ?_⟩; simp_all)

theorem nextValidate_one (ext : Externals) (s : State) (iter : BlobIterator)
    (ph : PutHeader) (r : Int) (t : State)
    (h : nextValidate ext s iter ph = (r, t)) (hr : r = rc_HAS_MESSAGE) :
    nextPayload ext s iter ph = (r, t) ∧
    k_MIN_PUT_HEADER_BYTES ≤ ph.headerWords * k_WORD_SIZE ∧
    ph.headerWords + ph.optionsWords ≤ ph.totalWords ∧
    ph.totalWords * k_WORD_SIZE ≤ iter.remaining ∧
    1 ≤ padByteOf iter ph ∧ padByteOf iter ph ≤ 4 ∧
    ph.headerWords * k_WORD_SIZE + ph.optionsWords * k_WORD_SIZE +
      padByteOf iter ph ≤ ph.totalWords * k_WORD_SIZE := by
  unfold nextValidate errOut at h
  repeat' split at h
  all_goals try injection h with h1 h2
  all_goals try subst h1
  all_goals try subst h2
  all_goals try simp [rc_TRUNCATED_HEADER, rc_INVALID_LENGTH,
    rc_INVALID_PADDING, rc_HAS_MESSAGE] at hr
  refine ⟨h, ?_, ?_, ?_, ?_, ?_, ?_⟩
  all_goals simp only [k_WORD_SIZE, k_MIN_PUT_HEADER_BYTES] at *
  all_goals omega

theorem nextHeader_one (ext : Externals) (s : State) (iter : BlobIterator)
    (r : Int) (t : State)
    (h : nextHeader ext s iter = (r, t)) (hr : r = rc_HAS_MESSAGE) :
    nextValidate ext s iter (decodePutHeader iter.blob iter.pos) = (r, t) ∧
    k_MIN_PUT_HEADER_BYTES ≤ iter.remaining := by
  unfold nextHeader errOut at h
  split at h
  · injection h with h1 h2; subst h1
    simp [rc_TRUNCATED_HEADER, rc_HAS_MESSAGE] at hr
  · exact ⟨h, by omega⟩

theorem next_one_step (ext : Externals) (s : State) (r : Int) (t : State)
    (h : next ext s = (r, t)) (hr : r = rc_HAS_MESSAGE) :
    nextHeader ext s (steppedIter s) = (r, t) ∧
    s.d_advanceLength.toNat ≤ s.d_blobIter.remaining ∧ isValid s = true := by
  unfold next errOut at h
  repeat' split at h
  all_goals try injection h with h1 h2
  all_goals try subst h1
  all_goals try subst h2
  all_goals try simp [rc_AT_END, rc_TRUNCATED_HEADER, rc_HAS_MESSAGE] at hr
  refine ⟨h, by omega, ?_⟩
  rename_i hv _ _
  simpa using hv

/-- Master characterization of a successful advance: when `next` returns 1,
the new state is `successState` of the stepped cursor and decoded header,
the header passed the structural validations, and the recorded
message-properties size is 0 when the `MESSAGE_PROPERTIES` flag is
clear. -/
theorem next_one_spec (ext : Externals) (s : State)
    (h : (next ext s).1 = rc_HAS_MESSAGE) :
    ∃ adOpt mpSz,
      (next ext s).2 = successState (steppedIter s) (msgHeaderOf s) adOpt
        (rawAdSizeOf (steppedIter s) (msgHeaderOf s)) mpSz s ∧
      (PutHeaderFlagUtil.isSet (msgHeaderOf s).flags
          PutHeaderFlags.e_MESSAGE_PROPERTIES = false → mpSz = 0) ∧
      k_MIN_PUT_HEADER_BYTES ≤ (msgHeaderOf s).headerWords * k_WORD_SIZE ∧
      (msgHeaderOf s).headerWords * k_WORD_SIZE +
          (msgHeaderOf s).optionsWords * k_WORD_SIZE +
          padByteOf (steppedIter s) (msgHeaderOf s) ≤
        (msgHeaderOf s).totalWords * k_WORD_SIZE ∧
      (msgHeaderOf s).totalWords * k_WORD_SIZE ≤ (steppedIter s).remaining ∧
      s.d_advanceLength.toNat ≤ s.d_blobIter.remaining := by
  rcases hp : next ext s with ⟨r, t⟩
  rw [hp] at h
  obtain ⟨h1, h2, _⟩ := next_one_step ext s r t hp h
  obtain ⟨h3, _⟩ := nextHeader_one ext s (steppedIter s) r t h1 h
  obtain ⟨h5, hmin, hsum, hrem, hpad1, hpad2, hfit⟩ :=
    nextValidate_one ext s (steppedIter s)
      (decodePutHeader (steppedIter s).blob (steppedIter s).pos) r t h3 h
  obtain ⟨adOpt, mpSz, ht, hmp⟩ :=
    nextPayload_one ext s (steppedIter s)
      (decodePutHeader (steppedIter s).blob (steppedIter s).pos) r t h5 h
  refine ⟨adOpt, mpSz, ?_, hmp, hmin, hfit, hrem, h2⟩
  exact ht

theorem int_ofNat_ne_neg_one (n : Nat) : Int.ofNat n ≠ -1 := by
  intro hc
  have h0 : (0 : Int) ≤ Int.ofNat n := Int.ofNat_nonneg n
  rw [hc] at h0
  norm_num at h0

theorem next_one_isValid (ext : Externals) (s : State)
    (h : (next ext s).1 = rc_HAS_MESSAGE) : isValid (next ext s).2 = true := by
  obtain ⟨adOpt, mpSz, ht, _, hmin, hfit, hrem, _⟩ := next_one_spec ext s h
  have hrem0 : (steppedIter s).remaining ≠ 0 := by
    simp only [k_WORD_SIZE, k_MIN_PUT_HEADER_BYTES] at hmin hfit hrem
    omega
  rw [ht]
  show (Int.ofNat ((msgHeaderOf s).totalWords * k_WORD_SIZE) != -1 &&
    !((steppedIter s).remaining == 0)) = true
  simp only [Bool.and_eq_true, bne_iff_ne, ne_eq, Bool.not_eq_true',
    beq_eq_false_iff_ne]
  exact ⟨int_ofNat_ne_neg_one _, hrem0⟩

theorem subBytes_length (blob : List Nat) (pos len : Nat) :
    (subBytes blob pos len).length = min len (blob.length - pos) := by
  simp [subBytes]

theorem parseOptionsGo_ne_nil (fuel : Nat) (a : Nat) (rest : List Nat)
    (l : List OptionEntry) (h : parseOptionsGo fuel (a :: rest) = some l) :
    l ≠ [] := by
  match fuel with
  | 0 => simp [parseOptionsGo] at h
  | fuel + 1 =>
    simp only [parseOptionsGo] at h
    repeat' split at h
    all_goals try simp_all
    all_goals subst h
    all_goals simp

theorem parseOptions_nil_iff (area : List Nat) (l : List OptionEntry)
    (h : parseOptions area = some l) : l = [] ↔ area = [] := by
  cases area with
  | nil =>
    simp only [parseOptions, parseOptionsGo] at h
    simp_all
  | cons a rest =>
    have hne := parseOptionsGo_ne_nil (a :: rest).length a rest l h
    simp [hne]

/-- Claim C1: after `next()` returns a negative error code the iterator
transitions to the invalid state (`isValid()` is false) and the `k`-th
subsequent call to `next` on that instance returns 0, for every iterator
state (hence every buffer chain and event header) and all external
collaborators; the error is reported only through the local return
value. -/
theorem next_error_invalid_and_sticky (ext : Externals) (s : State) (k : Nat)
    (h : (next ext s).1 < 0) :
    isValid (next ext s).2 = false ∧ (nextIter ext (next ext s).2 k).1 = 0 := by
  have hadv := next_neg_invalid ext s h
  have hinv : isValid (next ext s).2 = false := by simp [isValid, hadv]
  exact ⟨hinv, nextIter_of_not_isValid ext (next ext s).2 hinv k⟩

/-- Witness for C1 at the concrete truncated event `blobTrunc`: the first
advance returns a negative code; the iterator is then invalid and the third
subsequent call still returns 0. -/
theorem next_error_invalid_and_sticky_witness :
    (next extNone stateTrunc).1 < 0 ∧
      (isValid (next extNone stateTrunc).2 = false ∧
        (nextIter extNone (next extNone stateTrunc).2 2).1 = 0) :=
  ⟨by decide, next_error_invalid_and_sticky extNone stateTrunc 2 (by decide)⟩

theorem initCachedOptionsView_keeps (s : State) :
    (initCachedOptionsView s).d_advanceLength = s.d_advanceLength := by
  unfold initCachedOptionsView
  split
  · rfl
  · rfl

theorem hasMsgGroupId_advanceLength (s : State) :
    (hasMsgGroupId s).2.d_advanceLength = s.d_advanceLength := by
  have hs1 := initCachedOptionsView_keeps s
  unfold hasMsgGroupId
  split
  · rfl
  · split
    · exact hs1
    · split
      · exact hs1
      · exact hs1

theorem messagePayloadSize_state (s : State) (p : Int × State)
    (hp : messagePayloadSize s = some p) :
    p.2 = s ∨ p.2 = { s with
      d_lazyMessagePayloadSize :=
        s.d_applicationDataSize - s.d_messagePropertiesSize } := by
  obtain ⟨p1, p2⟩ := p
  unfold messagePayloadSize at hp
  repeat' split at hp
  all_goals simp at hp
  all_goals obtain ⟨h1, h2⟩ := hp
  all_goals subst h2
  all_goals simp

/-- Every operation of the model keeps `d_advanceLength` at or above the
`-1` sentinel. -/
theorem reachable_advanceLength_ge (s : State) (h : Reachable s) :
    -1 ≤ s.d_advanceLength := by
  induction h with
  | ctor b => simp [mkPutMessageIterator]
  | reset blob eh flag s hs ih =>
    unfold reset
    split
    · simp [clear]
    · simp
  | resetOther blob s other hs hother ihs ihother =>
    unfold resetWithOther
    split
    · simpa [copyFrom] using ihother
    · exact ihs
  | next ext s hs ih =>
    rcases next_advanceLength ext s with ⟨_, h2⟩ | h2 | ⟨_, h2⟩
    · rw [h2]; exact ih
    · rw [h2]
    · omega
  | clear s hs ih => simp [clear]
  | assign s rhs b hs hrhs ihs ihrhs =>
    unfold operatorAssign
    split
    · exact ihs
    · simpa [copyFrom] using ihrhs
  | groupId s hs ih => rw [hasMsgGroupId_advanceLength]; exact ih
  | payload s p hs hp ih =>
    rcases messagePayloadSize_state s p hp with h2 | h2
    · rw [h2]; exact ih
    · rw [h2]; exact ih

/-- Claim C2, amended: for every reachable iterator state, `isValid()`
returns true iff the cached advance length is `≥ 0` *and* the blob iterator
is not at its end; the sentinel `-1` always means invalid, but a
non-negative advance length alone does not make the iterator valid. -/
theorem isValid_iff_advance_nonneg_not_atEnd (s : State) (h : Reachable s) :
    isValid s = true ↔
      (0 ≤ s.d_advanceLength ∧ s.d_blobIter.atEnd = false) := by
  have hge := reachable_advanceLength_ge s h
  simp only [isValid, Bool.and_eq_true, bne_iff_ne, ne_eq, Bool.not_eq_true']
  constructor
  · rintro ⟨h1, h2⟩
    exact ⟨by omega, h2⟩
  · rintro ⟨h1, h2⟩
    exact ⟨by omega, h2⟩

/-- Claim C2, counterexample: the reachable state obtained by a successful
`reset` over the empty event (`total_length = header_length`) has
`d_advanceLength = 0 ≥ 0` while `isValid()` is already false, refuting
"`isValid()` returns true if and only if `d_advanceLength >= 0`". -/
theorem isValid_iff_advance_counterexample :
    Reachable emptyEventState ∧ 0 ≤ emptyEventState.d_advanceLength ∧
      isValid emptyEventState = false :=
  ⟨Reachable.reset emptyEventBlob ⟨8, 2⟩ false (mkPutMessageIterator false)
      (Reachable.ctor false),
    by decide, by decide⟩

/-- Witness for the amended C2 at the default-constructed state. -/
theorem isValid_iff_advance_nonneg_not_atEnd_witness :
    Reachable (mkPutMessageIterator false) ∧
    (isValid (mkPutMessageIterator false) = true ↔
      (0 ≤ (mkPutMessageIterator false).d_advanceLength ∧
        (mkPutMessageIterator false).d_blobIter.atEnd = false)) :=
  ⟨Reachable.ctor false,
    isValid_iff_advance_nonneg_not_atEnd (mkPutMessageIterator false)
      (Reachable.ctor false)⟩

/-- Claim C3, counterexample: on the reachable state reset with the
decompress flag, `clear()` does not restore the default-constructed state:
`d_decompressFlag` stays true while a freshly default-constructed instance
(either constructor argument) has it false. -/
theorem clear_default_counterexample :
    clear stateADec ≠ mkPutMessageIterator false ∧
    clear stateADec ≠ mkPutMessageIterator true := by
  constructor
  · decide
  · decide

/-- Claim C3, amended: `clear()` restores the blob iterator, the cached
header, every cached size and position, the advance length, the owned
decompressed buffer and the options view to their default-constructed
values, but leaves the decompression-mode flags (`d_decompressFlag`,
`d_isDecompressingOldMPs`) untouched. -/
theorem clear_restores_default_except_decompress_flags (s : State) :
    clear s = { mkPutMessageIterator s.d_isDecompressingOldMPs with
                d_decompressFlag := s.d_decompressFlag } := by
  cases s
  rfl

/-- Claim C5: for every message on which `next()` returned 1 and under the
decompression precondition governing `messagePropertiesSize()`: when the
`MESSAGE_PROPERTIES` flag of the exposed PUT header is clear,
`hasMessageProperties()` is false, the recorded `d_messagePropertiesSize`
is 0, and `messagePropertiesSize()` returns 0. -/
theorem mp_flag_clear_sizes_zero (ext : Externals) (s : State)
    (h : (next ext s).1 = 1)
    (hpol : mpsAssertCondition (next ext s).2 = true)
    (hflag : PutHeaderFlagUtil.isSet (next ext s).2.d_header.flags
      PutHeaderFlags.e_MESSAGE_PROPERTIES = false) :
    hasMessageProperties (next ext s).2 = false ∧
    (next ext s).2.d_messagePropertiesSize = 0 ∧
    messagePropertiesSize (next ext s).2 = some 0 := by
  have hval : isValid (next ext s).2 = true := next_one_isValid ext s h
  obtain ⟨adOpt, mpSz, ht, hmp, _, _, _, _⟩ := next_one_spec ext s h
  have hflags : (next ext s).2.d_header.flags = (msgHeaderOf s).flags := by
    rw [ht]
    cases adOpt <;> rfl
  have hmp0 : mpSz = 0 := by
    apply hmp
    rw [← hflags]
    exact hflag
  have hsz : (next ext s).2.d_messagePropertiesSize = 0 := by
    rw [ht]
    simp [successState, hmp0]
  refine ⟨hflag, hsz, ?_⟩
  simp [messagePropertiesSize, hval, hpol, hsz]

/-- First call on a freshly advanced state computes the payload size as
`application data size − properties size`, caches it, and a second call
returns the same value and state. -/
theorem messagePayloadSize_lazy_stable (u : State) (hval : isValid u = true)
    (hpol : mpsAssertCondition u = true)
    (hlazy : u.d_lazyMessagePayloadSize = -1) :
    ∃ v t1, messagePayloadSize u = some (v, t1) ∧
      v = u.d_applicationDataSize - u.d_messagePropertiesSize ∧
      messagePayloadSize t1 = some (v, t1) := by
  refine ⟨u.d_applicationDataSize - u.d_messagePropertiesSize,
    { u with d_lazyMessagePayloadSize :=
        u.d_applicationDataSize - u.d_messagePropertiesSize }, ?_, rfl, ?_⟩
  · unfold messagePayloadSize
    simp [hval, hpol, hlazy]
  · unfold messagePayloadSize
    have hval1 : isValid { u with d_lazyMessagePayloadSize :=
        u.d_applicationDataSize - u.d_messagePropertiesSize } = true := by
      simpa [isValid] using hval
    have hpol1 : mpsAssertCondition { u with d_lazyMessagePayloadSize :=
        u.d_applicationDataSize - u.d_messagePropertiesSize } = true := by
      simpa [mpsAssertCondition] using hpol
    simp only [hval1, hpol1, Bool.and_self, if_true]
    by_cases hv : u.d_applicationDataSize - u.d_messagePropertiesSize = -1
    · simp [hv]
    · simp [hv]

/-- Claim C6: for every message on which `next()` returned 1, under the
decompression precondition: the first `messagePayloadSize()` call returns
`applicationDataSize() − d_messagePropertiesSize` (computed lazily, the
cache having been invalidated by the advance) and a repeated call returns
the same value on the same state. -/
theorem message_payload_size_lazy_diff (ext : Externals) (s : State)
    (h : (next ext s).1 = 1)
    (hpol : mpsAssertCondition (next ext s).2 = true) :
    ∃ v t1, messagePayloadSize (next ext s).2 = some (v, t1) ∧
      v = applicationDataSize (next ext s).2 -
        (next ext s).2.d_messagePropertiesSize ∧
      messagePayloadSize t1 = some (v, t1) := by
  have hval : isValid (next ext s).2 = true := next_one_isValid ext s h
  have hlazy : (next ext s).2.d_lazyMessagePayloadSize = -1 := by
    obtain ⟨adOpt, mpSz, ht, _⟩ := next_one_spec ext s h
    rw [ht]
    rfl
  exact messagePayloadSize_lazy_stable (next ext s).2 hval hpol hlazy

/-- Claim C7: `messagePropertiesSize()` may be called exactly when a
decompression policy is in effect: on a valid iterator, the spec's
precondition is the condition asserted by the source
(`d_decompressFlag || d_isDecompressingOldMPs`), and under it the call is
defined and returns the cached size. -/
theorem mps_precondition_defined (s : State) (h1 : isValid s = true)
    (h2 : specPolicyInEffect s) :
    mpsAssertCondition s = true ∧
    messagePropertiesSize s = some s.d_messagePropertiesSize := by
  have hb : mpsAssertCondition s = true := by
    rcases h2 with hh | hh
    · simp [mpsAssertCondition, hh]
    · simp [mpsAssertCondition, hh]
  refine ⟨hb, ?_⟩
  simp [messagePropertiesSize, h1, hb]

/-- Claim C8: the rebind `reset(blob, other)` validates that the source
iterator's recorded total event length equals the new blob's length before
inheriting the cached offsets: it returns 0 exactly when the lengths agree
(then the cached cursor and offsets are inherited and re-pointed at the new
blob), and the non-zero error `-1` when they differ. -/
theorem reset_with_other_validates (blob : List Nat) (s other : State) :
    ((resetWithOther blob s other).1 = 0 ↔
      blob.length = other.d_blobIter.blob.length) ∧
    (blob.length = other.d_blobIter.blob.length →
      (resetWithOther blob s other).2.d_blobIter.blob = blob ∧
      (resetWithOther blob s other).2.d_blobIter.pos = other.d_blobIter.pos ∧
      (resetWithOther blob s other).2.d_advanceLength =
        other.d_advanceLength ∧
      (resetWithOther blob s other).2.d_optionsPosition =
        other.d_optionsPosition) ∧
    (blob.length ≠ other.d_blobIter.blob.length →
      (resetWithOther blob s other).1 = -1) := by
  unfold resetWithOther copyFrom
  split
  · simp_all
  · simp_all

/-- Witness for C8: a rebind with matching lengths succeeds and inherits
the offsets; the implications are discharged at the concrete instance. -/
theorem reset_with_other_validates_witness :
    ((resetWithOther (List.replicate 60 7) (mkPutMessageIterator false) msgA).1 = 0 ↔
      (List.replicate 60 7).length = msgA.d_blobIter.blob.length) ∧
    ((List.replicate 60 7).length = msgA.d_blobIter.blob.length →
      (resetWithOther (List.replicate 60 7) (mkPutMessageIterator false) msgA).2.d_blobIter.blob =
        List.replicate 60 7 ∧
      (resetWithOther (List.replicate 60 7) (mkPutMessageIterator false) msgA).2.d_blobIter.pos =
        msgA.d_blobIter.pos ∧
      (resetWithOther (List.replicate 60 7) (mkPutMessageIterator false) msgA).2.d_advanceLength =
        msgA.d_advanceLength ∧
      (resetWithOther (List.replicate 60 7) (mkPutMessageIterator false) msgA).2.d_optionsPosition =
        msgA.d_optionsPosition) ∧
    ((List.replicate 60 7).length ≠ msgA.d_blobIter.blob.length →
      (resetWithOther (List.replicate 60 7) (mkPutMessageIterator false) msgA).1 = -1) :=
  reset_with_other_validates (List.replicate 60 7) (mkPutMessageIterator false) msgA

/-- Claim C10: self-assignment is a no-op: whatever the pointer-identity
test yields, assigning an iterator state to itself returns the state with
every member unchanged. -/
theorem operator_assign_self_noop (s : State) (b : Bool) :
    operatorAssign s s b = s := by
  cases b
  · simp [operatorAssign, copyFrom]
  · simp [operatorAssign]

theorem steppedIter_wf (s : State) (hwf : s.d_blobIter.wf)
    (hadv : s.d_advanceLength.toNat ≤ s.d_blobIter.remaining) :
    (steppedIter s).pos + (steppedIter s).remaining ≤
      s.d_blobIter.blob.length := by
  simp only [BlobIterator.wf] at hwf
  simp only [steppedIter]
  omega

/-- Over a well-bounded options area, a valid options view is non-empty
exactly when the area is non-empty. -/
theorem view_nonempty_iff (blob : List Nat) (p n : Nat) (l : List OptionEntry)
    (hl : parseOptions (subBytes blob p n) = some l)
    (hbound : p + n ≤ blob.length) :
    0 < n ↔ 0 < l.length := by
  have hiff := parseOptions_nil_iff _ l hl
  have hlen : (subBytes blob p n).length = n := by
    rw [subBytes_length]
    omega
  constructor
  · intro hn
    rcases Nat.eq_zero_or_pos l.length with h0 | h0
    · exfalso
      have hl0 : l = [] := List.length_eq_zero.mp h0
      have harea : subBytes blob p n = [] := hiff.mp hl0
      rw [harea] at hlen
      simp at hlen
      omega
    · exact h0
  · intro hn
    rcases Nat.eq_zero_or_pos n with h0 | h0
    · exfalso
      subst h0
      simp only [subBytes, List.take_zero] at hl
      have hl0 : l = [] := (parseOptions_nil_iff [] l hl).mpr rfl
      rw [hl0] at hn
      simp at hn
    · exact h0

/-- Claim C4: for every message on which `next()` returned 1, over a
well-formed blob iterator and with the (lazily built) options view valid:
`hasOptions()` holds iff `optionsSize() > 0` iff the options view is
non-empty, and the cached options size is 0 iff the cached options position
is unset. -/
theorem options_stability (ext : Externals) (s : State)
    (hwf : s.d_blobIter.wf) (h : (next ext s).1 = 1)
    (hv : (mkOptionsView (next ext s).2.d_blobIter.blob
        (next ext s).2.d_optionsPosition
        (next ext s).2.d_optionsSize.toNat).isValidView = true) :
    (hasOptions (next ext s).2 = true ↔ 0 < optionsSize (next ext s).2) ∧
    (0 < optionsSize (next ext s).2 ↔
      0 < (mkOptionsView (next ext s).2.d_blobIter.blob
        (next ext s).2.d_optionsPosition
        (next ext s).2.d_optionsSize.toNat).entryCount) ∧
    (optionsSize (next ext s).2 = 0 ↔
      (next ext s).2.d_optionsPosition = 0) := by
  obtain ⟨adOpt, mpSz, ht, _, hmin, hfit, hrem, hadv⟩ := next_one_spec ext s h
  have hlen := steppedIter_wf s hwf hadv
  rw [ht] at hv ⊢
  simp only [successState, hasOptions, optionsSize, steppedIter, k_WORD_SIZE,
    Int.ofNat_eq_natCast, Int.toNat_natCast] at hv hlen hrem ⊢
  simp only [k_WORD_SIZE, k_MIN_PUT_HEADER_BYTES] at hmin hfit
  refine ⟨by simp, ?_, ?_⟩
  · -- the options view is non-empty exactly when the options size is > 0
    simp only [mkOptionsView, OptionsView.isValidView,
      Option.isSome_iff_exists] at hv
    obtain ⟨l, hl⟩ := hv
    simp only [mkOptionsView, OptionsView.entryCount, hl, Option.getD_some]
    rw [Nat.cast_pos]
    have hbound :
        (if 0 < (msgHeaderOf s).optionsWords then
          s.d_blobIter.pos + s.d_advanceLength.toNat +
            (msgHeaderOf s).headerWords * 4
        else 0) + (msgHeaderOf s).optionsWords * 4 ≤
          s.d_blobIter.blob.length := by
      by_cases how : 0 < (msgHeaderOf s).optionsWords
      · simp only [how, if_true]
        omega
      · simp only [how, if_false]
        omega
    have := view_nonempty_iff s.d_blobIter.blob
      (if 0 < (msgHeaderOf s).optionsWords then
        s.d_blobIter.pos + s.d_advanceLength.toNat +
          (msgHeaderOf s).headerWords * 4
      else 0) ((msgHeaderOf s).optionsWords * 4) l hl hbound
    constructor
    · intro hn
      exact this.mp (by omega)
    · intro hn
      have := this.mpr hn
      omega
  · -- the cached size is 0 exactly when the cached position is unset
    by_cases how : 0 < (msgHeaderOf s).optionsWords
    · simp only [how, if_true, Nat.cast_eq_zero]
      constructor
      · intro hc
        exfalso
        omega
      · intro hc
        exfalso
        omega
    · have how0 : (msgHeaderOf s).optionsWords = 0 := by omega
      simp [how0]

/-- Claim C9: for every message on which `next()` returned 1 (the lazily
initialized options view being valid whenever options are present):
`hasMsgGroupId()` returns true exactly when the message has options and the
options view contains a `MSG_GROUP_ID` entry; a true result implies
`hasOptions()`; and when `hasOptions()` is false the call returns without
touching the state, in particular the options-view cache stays
uninitialized. -/
theorem has_msg_group_id_via_view (ext : Externals) (s : State)
    (h : (next ext s).1 = 1)
    (hv : hasOptions (next ext s).2 = true →
      (mkOptionsView (next ext s).2.d_blobIter.blob
        (next ext s).2.d_optionsPosition
        (next ext s).2.d_optionsSize.toNat).isValidView = true) :
    (hasMsgGroupId (next ext s).2).1 =
      some (hasOptions (next ext s).2 &&
        ((mkOptionsView (next ext s).2.d_blobIter.blob
          (next ext s).2.d_optionsPosition
          (next ext s).2.d_optionsSize.toNat).find
            OptionType.e_MSG_GROUP_ID).isSome) ∧
    ((hasMsgGroupId (next ext s).2).1 = some true →
      hasOptions (next ext s).2 = true) ∧
    (hasOptions (next ext s).2 = false →
      (hasMsgGroupId (next ext s).2).2 = (next ext s).2 ∧
      ((hasMsgGroupId (next ext s).2).2).d_optionsView = none) := by
  have hcache : (next ext s).2.d_optionsView = none := by
    obtain ⟨adOpt, mpSz, ht, _⟩ := next_one_spec ext s h
    rw [ht]
    rfl
  by_cases hop : hasOptions (next ext s).2 = false
  · have hres : hasMsgGroupId (next ext s).2 = (some false, (next ext s).2) := by
      unfold hasMsgGroupId
      rw [if_pos hop]
    refine ⟨?_, ?_, ?_⟩
    · rw [hres, hop]
      simp
    · rw [hres]
      intro hc
      simp at hc
    · intro _
      rw [hres]
      exact ⟨rfl, hcache⟩
  · have hop' : hasOptions (next ext s).2 = true := by
      cases hb : hasOptions (next ext s).2
      · exact absurd hb hop
      · rfl
    have hvv := hv hop'
    have hview : (initCachedOptionsView (next ext s).2).d_optionsView =
        some (mkOptionsView (next ext s).2.d_blobIter.blob
          (next ext s).2.d_optionsPosition
          (next ext s).2.d_optionsSize.toNat) := by
      unfold initCachedOptionsView
      rw [hcache]
    have hres : hasMsgGroupId (next ext s).2 =
        (some ((mkOptionsView (next ext s).2.d_blobIter.blob
            (next ext s).2.d_optionsPosition
            (next ext s).2.d_optionsSize.toNat).find
              OptionType.e_MSG_GROUP_ID).isSome,
          initCachedOptionsView (next ext s).2) := by
      unfold hasMsgGroupId
      rw [if_neg hop, hview]
      simp [hvv]
    refine ⟨?_, ?_, ?_⟩
    · rw [hres, hop']
      simp
    · intro _
      exact hop'
    · intro hc
      rw [hop'] at hc
      cases hc

/-- Witness for C4 at the concrete one-message event `blobA` (one
`MSG_GROUP_ID` option record). -/
theorem options_stability_witness :
    (hasOptions (next extNone stateA).2 = true ↔
      0 < optionsSize (next extNone stateA).2) ∧
    (0 < optionsSize (next extNone stateA).2 ↔
      0 < (mkOptionsView (next extNone stateA).2.d_blobIter.blob
        (next extNone stateA).2.d_optionsPosition
        (next extNone stateA).2.d_optionsSize.toNat).entryCount) ∧
    (optionsSize (next extNone stateA).2 = 0 ↔
      (next extNone stateA).2.d_optionsPosition = 0) :=
  options_stability extNone stateA
    (by show stateA.d_blobIter.pos + stateA.d_blobIter.remaining ≤
          stateA.d_blobIter.blob.length
        decide)
    (by decide) (by decide)

/-- Witness for C5 on `blobA` iterated with the decompress flag: the
message has no `MESSAGE_PROPERTIES` flag and all three conclusions hold. -/
theorem mp_flag_clear_sizes_zero_witness :
    hasMessageProperties (next extNone stateADec).2 = false ∧
    (next extNone stateADec).2.d_messagePropertiesSize = 0 ∧
    messagePropertiesSize (next extNone stateADec).2 = some 0 :=
  mp_flag_clear_sizes_zero extNone stateADec (by decide) (by decide)
    (by decide)

/-- Witness for C6 on `blobA` iterated with the decompress flag: the first
payload-size call yields `5 − 0` and the repeated call is stable. -/
theorem message_payload_size_lazy_diff_witness :
    ∃ v t1, messagePayloadSize (next extNone stateADec).2 = some (v, t1) ∧
      v = applicationDataSize (next extNone stateADec).2 -
        (next extNone stateADec).2.d_messagePropertiesSize ∧
      messagePayloadSize t1 = some (v, t1) :=
  message_payload_size_lazy_diff extNone stateADec (by decide) (by decide)

/-- Witness for C7 on the message state of `blobA` under the decompress
flag. -/
theorem mps_precondition_defined_witness :
    mpsAssertCondition msgADec = true ∧
    messagePropertiesSize msgADec = some msgADec.d_messagePropertiesSize :=
  mps_precondition_defined msgADec (by decide) (Or.inl (by decide))

/-- Witness for C9 at the concrete one-message event `blobA`, whose single
option record is a `MSG_GROUP_ID`. -/
theorem has_msg_group_id_via_view_witness :
    ((hasMsgGroupId (next extNone stateA).2).1 =
      some (hasOptions (next extNone stateA).2 &&
        ((mkOptionsView (next extNone stateA).2.d_blobIter.blob
          (next extNone stateA).2.d_optionsPosition
          (next extNone stateA).2.d_optionsSize.toNat).find
            OptionType.e_MSG_GROUP_ID).isSome)) ∧
    ((hasMsgGroupId (next extNone stateA).2).1 = some true →
      hasOptions (next extNone stateA).2 = true) ∧
    (hasOptions (next extNone stateA).2 = false →
      (hasMsgGroupId (next extNone stateA).2).2 = (next extNone stateA).2 ∧
      ((hasMsgGroupId (next extNone stateA).2).2).d_optionsView = none) :=
  has_msg_group_id_via_view extNone stateA (by decide) (fun _ => by decide)

end BmqpPut
